import Mathlib

/-!
Verification of the bhr-design-decision-logger plugin backend
(src/code.js and the TypeScript revision in src/unnamed/part_002).

The plugin keeps two in-memory collections (decisions and resources),
persists each one as a JSON blob under a fixed namespace/key in the
document's shared plugin data, and processes CRUD commands arriving from
the UI one at a time.  This file embeds the data model, the JSON
serialization layer, the command handlers of figma.ui.onmessage, the
document-change detector, and the visual-mirror row construction, and
proves properties of them.

Modelling conventions:
- JavaScript strings are Lean Strings (sequences of chars); the code-unit
  granularity of substring/length is modelled at char granularity.
- Date.now() is a Nat parameter of each step (millisecond clock).
- figma.currentUser?.name is an Option String parameter.
- JSON.stringify/JSON.parse are the platform bijection between JSON
  values and their canonical strings, so a stored blob is modelled as the
  Json value itself; setSharedPluginData may throw, which the code turns
  into a false return value, modelled by a saveOk flag: on failure the
  blob is unchanged.
- figma.ui.postMessage record events and error figma.notify toasts are
  the terminal events a handler emits; success toasts accompanying a
  record event are not counted separately.
-/

/-- Status enum of a decision, from the Decision interface in
src/unnamed/part_002 lines 4-19. -/
inductive Status where
  | proposed
  | accepted
  | rejected
  | deprecated
  | superseded
  deriving DecidableEq, Repr

/-- Decision record, from the Decision interface in src/unnamed/part_002
lines 4-19.  links elements are {title, url} pairs.  pros, cons and tags
are filled with [] at creation, so stored records always carry them;
nodeId, nodeName and pageName may be absent. -/
structure Decision where
  id : String
  title : String
  rationale : String
  context : String
  timestamp : Nat
  author : String
  links : List (String × String)
  pros : List String
  cons : List String
  tags : List String
  nodeId : Option String
  nodeName : Option String
  pageName : Option String
  status : Status
  deriving DecidableEq, Repr

/-- Resource record, from the Resource interface in src/unnamed/part_002
lines 22-31. -/
structure Resource where
  id : String
  title : String
  description : String
  url : String
  category : String
  timestamp : Nat
  author : String
  tags : List String
  deriving DecidableEq, Repr

/-- JSON values, the image of JSON.stringify / the domain of JSON.parse.
The stored blob is modelled as a Json value because stringify and parse
are a platform-level bijection between JSON values and their canonical
strings. -/
inductive Json where
  | jnull
  | jstr (s : String)
  | jnum (n : Nat)
  | jarr (elems : List Json)
  | jobj (fields : List (String × Json))

/-- Lookup of an object field by key, as JavaScript property access on a
parsed object. -/
def getKey (k : String) : List (String × Json) → Option Json
  | [] => none
  | (k2, v) :: rest => if k = k2 then some v else getKey k rest

/-- The string encoding of a status literal. -/
def statusToString : Status → String
  | Status.proposed => "proposed"
  | Status.accepted => "accepted"
  | Status.rejected => "rejected"
  | Status.deprecated => "deprecated"
  | Status.superseded => "superseded"

/-- Decoding of a status literal. -/
def statusOfString (s : String) : Option Status :=
  if s = "proposed" then some Status.proposed
  else if s = "accepted" then some Status.accepted
  else if s = "rejected" then some Status.rejected
  else if s = "deprecated" then some Status.deprecated
  else if s = "superseded" then some Status.superseded
  else none

/-- Encoding of one {title, url} link object. -/
def encodeLink (x : String × String) : Json :=
  Json.jobj [("title", Json.jstr x.1), ("url", Json.jstr x.2)]

/-- Decoding of one {title, url} link object. -/
def decodeLink (j : Json) : Option (String × String) :=
  match j with
  | Json.jobj fs =>
    match getKey "title" fs, getKey "url" fs with
    | some (Json.jstr t), some (Json.jstr u) => some (t, u)
    | _, _ => none
  | _ => none

/-- Decoding of one JSON string element. -/
def decodeStr (j : Json) : Option String :=
  match j with
  | Json.jstr s => some s
  | _ => none

/-- Elementwise decoding of a JSON array, failing if any element fails. -/
def decodeJsonList (f : Json → Option α) : List Json → Option (List α)
  | [] => some []
  | x :: xs =>
    match f x, decodeJsonList f xs with
    | some a, some rest => some (a :: rest)
    | _, _ => none

/-- Optional string fields (nodeId, nodeName, pageName): JSON.stringify
omits keys whose value is undefined, so an absent field encodes as no key
at all. -/
def encodeOptStr (k : String) : Option String → List (String × Json)
  | none => []
  | some s => [(k, Json.jstr s)]

/-- Reading of an optional string field from a parsed object. -/
def readOptStr (j : Option Json) : Option String :=
  match j with
  | some (Json.jstr s) => some s
  | _ => none

/-- JSON encoding of a Decision record, the object shape produced by
JSON.stringify in saveDecisionsToDocument (src/code.js lines 74-83). -/
def encodeDecision (d : Decision) : Json :=
  Json.jobj
    ([("id", Json.jstr d.id),
      ("title", Json.jstr d.title),
      ("rationale", Json.jstr d.rationale),
      ("context", Json.jstr d.context),
      ("timestamp", Json.jnum d.timestamp),
      ("author", Json.jstr d.author),
      ("links", Json.jarr (d.links.map encodeLink)),
      ("pros", Json.jarr (d.pros.map Json.jstr)),
      ("cons", Json.jarr (d.cons.map Json.jstr)),
      ("tags", Json.jarr (d.tags.map Json.jstr))]
     ++ encodeOptStr "nodeId" d.nodeId
     ++ encodeOptStr "nodeName" d.nodeName
     ++ encodeOptStr "pageName" d.pageName
     ++ [("status", Json.jstr (statusToString d.status))])

/-- Reading a Decision record back from a parsed JSON object, field by
field as the Decision interface declares them. -/
def decodeDecision (j : Json) : Option Decision :=
  match j with
  | Json.jobj fs => do
    let id ← readOptStr (getKey "id" fs)
    let title ← readOptStr (getKey "title" fs)
    let rationale ← readOptStr (getKey "rationale" fs)
    let context ← readOptStr (getKey "context" fs)
    let timestamp ←
      match getKey "timestamp" fs with
      | some (Json.jnum n) => some n
      | _ => none
    let author ← readOptStr (getKey "author" fs)
    let links ←
      match getKey "links" fs with
      | some (Json.jarr xs) => decodeJsonList decodeLink xs
      | _ => none
    let pros ←
      match getKey "pros" fs with
      | some (Json.jarr xs) => decodeJsonList decodeStr xs
      | _ => none
    let cons ←
      match getKey "cons" fs with
      | some (Json.jarr xs) => decodeJsonList decodeStr xs
      | _ => none
    let tags ←
      match getKey "tags" fs with
      | some (Json.jarr xs) => decodeJsonList decodeStr xs
      | _ => none
    let status ←
      match readOptStr (getKey "status" fs) with
      | some s => statusOfString s
      | none => none
    some { id := id, title := title, rationale := rationale,
           context := context, timestamp := timestamp, author := author,
           links := links, pros := pros, cons := cons, tags := tags,
           nodeId := readOptStr (getKey "nodeId" fs),
           nodeName := readOptStr (getKey "nodeName" fs),
           pageName := readOptStr (getKey "pageName" fs),
           status := status }
  | _ => none

/-- JSON encoding of a Resource record. -/
def encodeResource (r : Resource) : Json :=
  Json.jobj
    [("id", Json.jstr r.id),
     ("title", Json.jstr r.title),
     ("description", Json.jstr r.description),
     ("url", Json.jstr r.url),
     ("category", Json.jstr r.category),
     ("timestamp", Json.jnum r.timestamp),
     ("author", Json.jstr r.author),
     ("tags", Json.jarr (r.tags.map Json.jstr))]

/-- Reading a Resource record back from a parsed JSON object. -/
def decodeResource (j : Json) : Option Resource :=
  match j with
  | Json.jobj fs => do
    let id ← readOptStr (getKey "id" fs)
    let title ← readOptStr (getKey "title" fs)
    let description ← readOptStr (getKey "description" fs)
    let url ← readOptStr (getKey "url" fs)
    let category ← readOptStr (getKey "category" fs)
    let timestamp ←
      match getKey "timestamp" fs with
      | some (Json.jnum n) => some n
      | _ => none
    let author ← readOptStr (getKey "author" fs)
    let tags ←
      match getKey "tags" fs with
      | some (Json.jarr xs) => decodeJsonList decodeStr xs
      | _ => none
    some { id := id, title := title, description := description,
           url := url, category := category, timestamp := timestamp,
           author := author, tags := tags }
  | _ => none

/-- Whole-collection encoding: JSON.stringify(decisions) serializes the
full array (src/code.js line 76). -/
def encodeDecisionList (l : List Decision) : Json :=
  Json.jarr (l.map encodeDecision)

/-- Whole-collection encoding for resources (src/code.js line 87). -/
def encodeResourceList (l : List Resource) : Json :=
  Json.jarr (l.map encodeResource)

/-- Whole-collection decoding for decisions. -/
def decodeDecisionList (j : Json) : Option (List Decision) :=
  match j with
  | Json.jarr xs => decodeJsonList decodeDecision xs
  | _ => none

/-- Whole-collection decoding for resources. -/
def decodeResourceList (j : Json) : Option (List Resource) :=
  match j with
  | Json.jarr xs => decodeJsonList decodeResource xs
  | _ => none

theorem decodeLink_encodeLink (x : String × String) :
    decodeLink (encodeLink x) = some x := rfl

theorem decodeJsonList_map (f : Json → Option α) (g : α → Json)
    (h : ∀ a, f (g a) = some a) (l : List α) :
    decodeJsonList f (l.map g) = some l := by
  induction l with
  | nil => rfl
  | cons a rest ih => simp [decodeJsonList, h a, ih]

theorem statusOfString_statusToString (st : Status) :
    statusOfString (statusToString st) = some st := by
  cases st <;> rfl

theorem decodeDecision_encodeDecision (d : Decision) :
    decodeDecision (encodeDecision d) = some d := by
  obtain ⟨i, t, ra, ctx, ts, au, ls, ps, cs, tg, ni, nn, pn, st⟩ := d
  cases ni <;> cases nn <;> cases pn <;>
    simp [encodeDecision, decodeDecision, encodeOptStr, getKey, readOptStr,
          decodeJsonList_map decodeLink encodeLink decodeLink_encodeLink,
          decodeJsonList_map decodeStr Json.jstr (fun _ => rfl),
          statusOfString_statusToString]

theorem decodeResource_encodeResource (r : Resource) :
    decodeResource (encodeResource r) = some r := by
  obtain ⟨i, t, de, u, ca, ts, au, tg⟩ := r
  simp [encodeResource, decodeResource, getKey, readOptStr,
        decodeJsonList_map decodeStr Json.jstr (fun _ => rfl)]

theorem decodeDecisionList_encodeDecisionList (l : List Decision) :
    decodeDecisionList (encodeDecisionList l) = some l := by
  simp [decodeDecisionList, encodeDecisionList,
        decodeJsonList_map decodeDecision encodeDecision
          decodeDecision_encodeDecision]

theorem decodeResourceList_encodeResourceList (l : List Resource) :
    decodeResourceList (encodeResourceList l) = some l := by
  simp [decodeResourceList, encodeResourceList,
        decodeJsonList_map decodeResource encodeResource
          decodeResource_encodeResource]

/-- JavaScript or-default on the user name: figma.currentUser?.name ||
"Unknown" — a missing user name or the empty string (falsy) both yield
"Unknown". -/
def jsNameOrUnknown : Option String → String
  | none => "Unknown"
  | some s => if s = "" then "Unknown" else s

/-- Payload of a create-decision message (fields read from msg by the
handler at src/code.js lines 173-201; optional fields may be absent). -/
structure CreateDecisionMsg where
  title : String
  rationale : String
  context : String
  links : Option (List (String × String))
  pros : Option (List String)
  cons : Option (List String)
  tags : Option (List String)
  nodeId : Option String
  nodeName : Option String
  pageName : Option String
  status : Option Status
  deriving DecidableEq, Repr

/-- Payload of a create-resource message (src/code.js lines 150-172). -/
structure CreateResourceMsg where
  title : String
  description : String
  url : String
  category : String
  tags : Option (List String)
  deriving DecidableEq, Repr

/-- The CRUD commands arriving through figma.ui.onmessage.  The edit
commands carry a full record (msg.decision / msg.resource); the delete
commands carry an id (msg.id). -/
inductive Command where
  | createDecision (msg : CreateDecisionMsg)
  | editDecision (p : Decision)
  | deleteDecision (id : String)
  | createResource (msg : CreateResourceMsg)
  | editResource (p : Resource)
  | deleteResource (id : String)
  deriving DecidableEq, Repr

/-- Per-command environment: the value Date.now() returns while the
handler runs, the current user name, and whether the
setSharedPluginData write succeeds (saveDecisionsToDocument /
saveResourcesToDocument return value). -/
structure Env where
  now : Nat
  user : Option String
  saveOk : Bool
  deriving DecidableEq, Repr

/-- Plugin state: the two in-memory collections plus the two persisted
blobs (shared plugin data under keys designDecisions and
designResources; none models an unset key, which
getSharedPluginData reports as the empty, falsy string). -/
structure PluginState where
  decisions : List Decision
  resources : List Resource
  storedDecisions : Option Json
  storedResources : Option Json

/-- Terminal events a handler emits back: the figma.ui.postMessage
record events, or the error figma.notify toast emitted instead when a
save fails (the success toast accompanies a record event and is not a
separate terminal event). -/
inductive Event where
  | decisionCreated (d : Decision)
  | decisionUpdated (d : Decision)
  | decisionDeleted (id : String)
  | resourceCreated (r : Resource)
  | resourceUpdated (r : Resource)
  | resourceDeleted (id : String)
  | errorNotification (text : String)
  deriving DecidableEq, Repr

/-- Building of the newDecision object in the create-decision handler
(src/code.js lines 175-190): id from Date.now().toString(), timestamp
from Date.now(), author from the current user, defaults for the
optional fields, status defaulting to proposed. -/
def buildDecision (msg : CreateDecisionMsg) (e : Env) : Decision :=
  { id := toString e.now
    title := msg.title
    rationale := msg.rationale
    context := msg.context
    timestamp := e.now
    author := jsNameOrUnknown e.user
    links := msg.links.getD []
    pros := msg.pros.getD []
    cons := msg.cons.getD []
    tags := msg.tags.getD []
    nodeId := msg.nodeId
    nodeName := msg.nodeName
    pageName := msg.pageName
    status := msg.status.getD Status.proposed }

/-- Building of the newResource object in the create-resource handler
(src/code.js lines 152-161). -/
def buildResource (msg : CreateResourceMsg) (e : Env) : Resource :=
  { id := toString e.now
    title := msg.title
    description := msg.description
    url := msg.url
    category := msg.category
    timestamp := e.now
    author := jsNameOrUnknown e.user
    tags := msg.tags.getD [] }

/-- The edit-decision mutation (src/code.js lines 202-217):
findIndex on id, and when found, replacement of that element by the
incoming record with timestamp refreshed and the stored author kept.
Returns the new list together with the updated record posted back, or
none when findIndex returned -1. -/
def editFirstDecision (p : Decision) (now : Nat) :
    List Decision → Option (List Decision × Decision)
  | [] => none
  | d :: rest =>
    if d.id == p.id then
      some ({ p with timestamp := now, author := d.author } :: rest,
            { p with timestamp := now, author := d.author })
    else
      match editFirstDecision p now rest with
      | none => none
      | some (l, u) => some (d :: l, u)

/-- The edit-resource mutation (src/code.js lines 230-245), analogous. -/
def editFirstResource (p : Resource) (now : Nat) :
    List Resource → Option (List Resource × Resource)
  | [] => none
  | r :: rest =>
    if r.id == p.id then
      some ({ p with timestamp := now, author := r.author } :: rest,
            { p with timestamp := now, author := r.author })
    else
      match editFirstResource p now rest with
      | none => none
      | some (l, u) => some (r :: l, u)

/-- One pass of the figma.ui.onmessage handler (src/code.js lines
145-332) for a CRUD command: mutate the in-memory collection, attempt
the save, and emit the terminal events.  A failed save leaves the blob
unchanged and emits the error toast; the unmatched-edit branch does
nothing at all. -/
def step (c : Command) (e : Env) (s : PluginState) :
    PluginState × List Event :=
  match c with
  | Command.createDecision msg =>
    let newDecision := buildDecision msg e
    let ds := s.decisions ++ [newDecision]
    if e.saveOk then
      ({ s with decisions := ds,
                storedDecisions := some (encodeDecisionList ds) },
       [Event.decisionCreated newDecision])
    else
      ({ s with decisions := ds },
       [Event.errorNotification "Error saving decision"])
  | Command.editDecision p =>
    match editFirstDecision p e.now s.decisions with
    | none => (s, [])
    | some (ds, updated) =>
      if e.saveOk then
        ({ s with decisions := ds,
                  storedDecisions := some (encodeDecisionList ds) },
         [Event.decisionUpdated updated])
      else
        ({ s with decisions := ds },
         [Event.errorNotification "Error updating decision"])
  | Command.deleteDecision delId =>
    let ds := s.decisions.filter (fun d => d.id != delId)
    if e.saveOk then
      ({ s with decisions := ds,
                storedDecisions := some (encodeDecisionList ds) },
       [Event.decisionDeleted delId])
    else
      ({ s with decisions := ds },
       [Event.errorNotification "Error deleting decision"])
  | Command.createResource msg =>
    let newResource := buildResource msg e
    let rs := s.resources ++ [newResource]
    if e.saveOk then
      ({ s with resources := rs,
                storedResources := some (encodeResourceList rs) },
       [Event.resourceCreated newResource])
    else
      ({ s with resources := rs },
       [Event.errorNotification "Error saving resource"])
  | Command.editResource p =>
    match editFirstResource p e.now s.resources with
    | none => (s, [])
    | some (rs, updated) =>
      if e.saveOk then
        ({ s with resources := rs,
                  storedResources := some (encodeResourceList rs) },
         [Event.resourceUpdated updated])
      else
        ({ s with resources := rs },
         [Event.errorNotification "Error updating resource"])
  | Command.deleteResource delId =>
    let rs := s.resources.filter (fun r => r.id != delId)
    if e.saveOk then
      ({ s with resources := rs,
                storedResources := some (encodeResourceList rs) },
       [Event.resourceDeleted delId])
    else
      ({ s with resources := rs },
       [Event.errorNotification "Error deleting resource"])

/-- Sequential processing of a command list (single-threaded handler:
one command runs to completion before the next). -/
def run (cmds : List (Command × Env)) (s : PluginState) : PluginState :=
  cmds.foldl (fun st ce => (step ce.1 ce.2 st).1) s

/-- Loading of the decisions blob as initializePlugin does (src/code.js
lines 29-47): an unset key (falsy data) yields the empty collection,
otherwise the blob is parsed and read back as the record list. -/
def loadDecisionsBlob : Option Json → Option (List Decision)
  | none => some []
  | some j => decodeDecisionList j

/-- Loading of the resources blob (src/code.js lines 48-58). -/
def loadResourcesBlob : Option Json → Option (List Resource)
  | none => some []
  | some j => decodeResourceList j

/-- Persisting the decision collection (saveDecisionsToDocument,
src/code.js lines 74-83, successful case): the blob becomes the
serialization of the whole list. -/
def saveDecisionsBlob (l : List Decision) : Option Json :=
  some (encodeDecisionList l)

/-- The decisions blob agrees with the in-memory decision collection:
reading and decoding it yields exactly the in-memory list. -/
def decisionsInSync (s : PluginState) : Prop :=
  loadDecisionsBlob s.storedDecisions = some s.decisions

/-- The resources blob agrees with the in-memory resource collection. -/
def resourcesInSync (s : PluginState) : Prop :=
  loadResourcesBlob s.storedResources = some s.resources

/-- Strict inequality of a string against a possibly-undefined string
(figma.fileKey is undefined for unsaved files): comparing a string with
undefined via the strict operator yields true. -/
def jsStrictNeq (a : String) (b : Option String) : Bool :=
  match b with
  | some s => a != s
  | none => true

/-- JavaScript truthiness of a string: every nonempty string is truthy. -/
def jsTruthy (s : String) : Bool := s != ""

/-- The live document identity, figma.fileKey || figma.root.id, as
initializePlugin computes it (src/unnamed/part_002 line 52). -/
def liveDocumentId (fileKey : Option String) (rootId : String) : String :=
  match fileKey with
  | some s => if s = "" then rootId else s
  | none => rootId

/-- The condition of checkForDocumentChange in the compiled plugin
(src/code.js lines 124-130): currentDocumentId !== figma.root.id. -/
def checkForDocumentChangeCond (currentDocumentId rootId : String) : Bool :=
  currentDocumentId != rootId

/-- The condition of checkForDocumentChange in the TypeScript revision
(src/unnamed/part_002 lines 154-160), written there as
currentDocumentId !== figma.fileKey || figma.root.id.  By JavaScript
operator precedence this parses as
(currentDocumentId !== figma.fileKey) || figma.root.id, and the whole
expression is coerced to a boolean by the if statement. -/
def checkForDocumentChangeCondTS (currentDocumentId : String)
    (fileKey : Option String) (rootId : String) : Bool :=
  jsStrictNeq currentDocumentId fileKey || jsTruthy rootId

/-- Claim C4: the document-change detector should rerun initializePlugin
if and only if the cached document identity differs from the live one.
At a concrete input where the identities agree (cached id equals
figma.fileKey, with a nonempty figma.root.id), the TypeScript revision
of checkForDocumentChange still fires, because its condition parses as
(cached !== fileKey) || root.id, which is true whenever root.id is
nonempty; the compiled revision of the condition correctly evaluates to
false at its equal-identity input. -/
theorem C4_detector_fires_on_equal_identity :
    liveDocumentId (some "FILEKEY") "0:0" = "FILEKEY"
    ∧ checkForDocumentChangeCondTS "FILEKEY" (some "FILEKEY") "0:0" = true
    ∧ checkForDocumentChangeCond "0:0" "0:0" = false := by
  exact ⟨rfl, rfl, by decide⟩

/-- Initial plugin state after initializePlugin on a document with no
saved data: empty collections, no stored blobs. -/
def initState : PluginState :=
  { decisions := [], resources := [], storedDecisions := none,
    storedResources := none }

/-- A first create-decision payload. -/
def darkModeMsg : CreateDecisionMsg :=
  { title := "Use dark mode default", rationale := "Accessibility",
    context := "Settings redesign", links := none, pros := none,
    cons := none, tags := none, nodeId := none, nodeName := none,
    pageName := none, status := none }

/-- A second create-decision payload. -/
def lightModeMsg : CreateDecisionMsg :=
  { title := "Offer light mode toggle", rationale := "Choice",
    context := "Settings redesign", links := none, pros := none,
    cons := none, tags := none, nodeId := none, nodeName := none,
    pageName := none, status := none }

/-- Claim C2: ids assigned by create should be pairwise distinct even
for rapid sequential creates.  Evaluating the handler at the failing
input — two create-decision commands processed while Date.now() returns
the same millisecond value 1000 — shows both stored records receive the
identical id "1000", because the id is Date.now().toString(). -/
theorem C2_same_millisecond_creates_collide :
    ((run [(Command.createDecision darkModeMsg,
            { now := 1000, user := some "Alice", saveOk := true }),
           (Command.createDecision lightModeMsg,
            { now := 1000, user := some "Alice", saveOk := true })]
         initState).decisions.map (fun d => d.id)) = ["1000", "1000"] := by
  rfl

/-- Claim C8: saving a decision list (serializing the whole collection
into the stored blob) and then loading (reading and decoding the blob)
with no intervening mutation yields exactly the original list, records
and order preserved. -/
theorem C8_save_then_load_roundtrip (l : List Decision) :
    loadDecisionsBlob (saveDecisionsBlob l) = some l := by
  simp [loadDecisionsBlob, saveDecisionsBlob,
        decodeDecisionList_encodeDecisionList]

/-- One rgb color as the mirror uses them (the source writes fractional
color components; they are exact decimals, modelled as rationals). -/
structure Rgb where
  r : ℚ
  g : ℚ
  b : ℚ
  deriving DecidableEq

/-- Blue, the color labelled Blue at src/unnamed/part_002 line 277. -/
def blueColor : Rgb := ⟨0.05, 0.28, 0.63⟩

/-- Green, labelled at line 278. -/
def greenColor : Rgb := ⟨0.11, 0.37, 0.13⟩

/-- Red, labelled at line 279. -/
def redColor : Rgb := ⟨0.72, 0.11, 0.11⟩

/-- Brown, labelled at line 280. -/
def brownColor : Rgb := ⟨0.24, 0.15, 0.14⟩

/-- Purple, labelled at line 281. -/
def purpleColor : Rgb := ⟨0.29, 0.08, 0.55⟩

/-- The statusColors mapping of createDecisionRow (src/unnamed/part_002
lines 276-282). -/
def statusColors : Status → Rgb
  | Status.proposed => ⟨0.05, 0.28, 0.63⟩
  | Status.accepted => ⟨0.11, 0.37, 0.13⟩
  | Status.rejected => ⟨0.72, 0.11, 0.11⟩
  | Status.deprecated => ⟨0.24, 0.15, 0.14⟩
  | Status.superseded => ⟨0.29, 0.08, 0.55⟩

/-- One cell of a mirror row: the characters set on the text node, the
cell width, the font weight, and the optional fill color override. -/
structure Cell where
  text : String
  width : Nat
  weight : String
  color : Option Rgb

/-- JavaScript s.substring(0, n): the first n code units, or all of s
when it is shorter. -/
def jsSubstringTo (s : String) (n : Nat) : String :=
  String.mk (s.data.take n)

/-- JavaScript s.length. -/
def jsStringLength (s : String) : Nat := s.data.length

/-- The cellData array built by createDecisionRow (src/unnamed/part_002
lines 284-292); formattedDate stands for the locale-dependent
date.toLocaleDateString() result computed from decision.timestamp. -/
def cellData (decision : Decision) (formattedDate : String) : List Cell :=
  [⟨decision.title, 200, "Medium", none⟩,
   ⟨(statusToString decision.status).toUpper, 100, "Medium",
    some (statusColors decision.status)⟩,
   ⟨jsSubstringTo decision.context 100
      ++ (if jsStringLength decision.context > 100 then "..." else ""),
    250, "Regular", none⟩,
   ⟨jsSubstringTo decision.rationale 100
      ++ (if jsStringLength decision.rationale > 100 then "..." else ""),
    250, "Regular", none⟩,
   ⟨decision.author, 120, "Regular", none⟩,
   ⟨formattedDate, 120, "Regular", none⟩,
   ⟨String.intercalate ", " decision.tags, 160, "Regular", none⟩]

theorem truncated_cell_text (s : String) :
    jsSubstringTo s 100
        ++ (if jsStringLength s > 100 then "..." else "")
      = if jsStringLength s ≤ 100 then s
        else jsSubstringTo s 100 ++ "..." := by
  by_cases h : jsStringLength s ≤ 100
  · have hgt : ¬ jsStringLength s > 100 := by omega
    rw [if_neg hgt, if_pos h]
    have h2 : (jsSubstringTo s 100 ++ "").data = s.data := by
      rw [String.data_append]
      simp [jsSubstringTo, List.take_of_length_le h]
    cases hx : jsSubstringTo s 100 ++ "" with
    | mk d =>
      rw [hx] at h2
      cases s with
      | mk sd => exact congrArg String.mk h2
  · have hgt : jsStringLength s > 100 := by omega
    rw [if_pos hgt, if_neg h]

/-- Claim C9: in the mirror row built for a decision, the context and
rationale cells show the full text when it has at most 100 characters
and otherwise its first 100 characters followed by the ellipsis marker,
and the status cell carries the fixed status-to-color mapping
(proposed to blue, accepted to green, rejected to red, deprecated to
brown, superseded to purple). -/
theorem C9_mirror_row_truncation_and_status_colors
    (d : Decision) (formattedDate : String) :
    ((cellData d formattedDate).map Cell.text)[2]?
        = some (if jsStringLength d.context ≤ 100 then d.context
                else jsSubstringTo d.context 100 ++ "...")
    ∧ ((cellData d formattedDate).map Cell.text)[3]?
        = some (if jsStringLength d.rationale ≤ 100 then d.rationale
                else jsSubstringTo d.rationale 100 ++ "...")
    ∧ ((cellData d formattedDate).map Cell.color)[1]?
        = some (some (statusColors d.status))
    ∧ statusColors Status.proposed = blueColor
    ∧ statusColors Status.accepted = greenColor
    ∧ statusColors Status.rejected = redColor
    ∧ statusColors Status.deprecated = brownColor
    ∧ statusColors Status.superseded = purpleColor := by
  refine ⟨?_, ?_, rfl, rfl, rfl, rfl, rfl, rfl⟩
  · show some (jsSubstringTo d.context 100
        ++ (if jsStringLength d.context > 100 then "..." else "")) = _
    rw [truncated_cell_text]
  · show some (jsSubstringTo d.rationale 100
        ++ (if jsStringLength d.rationale > 100 then "..." else "")) = _
    rw [truncated_cell_text]

theorem editFirstDecision_not_found (p : Decision) (now : Nat)
    (l : List Decision) (h : ∀ d ∈ l, (d.id == p.id) = false) :
    editFirstDecision p now l = none := by
  revert h
  induction l with
  | nil => intro _; rfl
  | cons d rest ih =>
    intro h
    have hd := h d (List.mem_cons_self d rest)
    have hr := ih (fun x hx => h x (List.mem_cons_of_mem d hx))
    simp [editFirstDecision, hd, hr]

theorem editFirstDecision_none_forall (p : Decision) (now : Nat)
    (l : List Decision) (hnone : editFirstDecision p now l = none) :
    ∀ d ∈ l, (d.id == p.id) = false := by
  revert hnone
  induction l with
  | nil => intro _ d hd; cases hd
  | cons d rest ih =>
    intro hnone x hx
    cases hd : d.id == p.id with
    | true =>
      exfalso
      simp only [editFirstDecision, hd, if_pos] at hnone
      exact Option.noConfusion hnone
    | false =>
      simp only [editFirstDecision, hd, Bool.false_eq_true, if_false]
        at hnone
      cases hrec : editFirstDecision p now rest with
      | none =>
        rcases List.mem_cons.mp hx with rfl | hxr
        · exact hd
        · exact ih hrec x hxr
      | some pair => rw [hrec] at hnone; cases hnone

theorem editFirstResource_not_found (p : Resource) (now : Nat)
    (l : List Resource) (h : ∀ r ∈ l, (r.id == p.id) = false) :
    editFirstResource p now l = none := by
  revert h
  induction l with
  | nil => intro _; rfl
  | cons d rest ih =>
    intro h
    have hd := h d (List.mem_cons_self d rest)
    have hr := ih (fun x hx => h x (List.mem_cons_of_mem d hx))
    simp [editFirstResource, hd, hr]

theorem editFirstResource_none_forall (p : Resource) (now : Nat)
    (l : List Resource) (hnone : editFirstResource p now l = none) :
    ∀ r ∈ l, (r.id == p.id) = false := by
  revert hnone
  induction l with
  | nil => intro _ d hd; cases hd
  | cons d rest ih =>
    intro hnone x hx
    cases hd : d.id == p.id with
    | true =>
      exfalso
      simp only [editFirstResource, hd, if_pos] at hnone
      exact Option.noConfusion hnone
    | false =>
      simp only [editFirstResource, hd, Bool.false_eq_true, if_false]
        at hnone
      cases hrec : editFirstResource p now rest with
      | none =>
        rcases List.mem_cons.mp hx with rfl | hxr
        · exact hd
        · exact ih hrec x hxr
      | some pair => rw [hrec] at hnone; cases hnone

theorem editFirstDecision_first_match (p : Decision) (now : Nat)
    (l1 l2 : List Decision) (d : Decision)
    (h1 : ∀ x ∈ l1, (x.id == p.id) = false)
    (h2 : (d.id == p.id) = true) :
    editFirstDecision p now (l1 ++ d :: l2)
      = some (l1 ++ { p with timestamp := now, author := d.author } :: l2,
              { p with timestamp := now, author := d.author }) := by
  revert h1
  induction l1 with
  | nil => intro _; simp [editFirstDecision, h2]
  | cons x rest ih =>
    intro h1
    have hx : (x.id == p.id) = false := h1 x (List.mem_cons_self x rest)
    have hr := ih (fun y hy => h1 y (List.mem_cons_of_mem x hy))
    simp only [List.cons_append, editFirstDecision, hx, Bool.false_eq_true,
               if_false, List.append_eq, hr]

/-- Claim C3: for a stored decision d and an edit payload p whose id
matches d (with d the first stored record carrying that id), the record
stored after the edit keeps id and author from d, takes every other
field from p, and carries the edit time as its timestamp. -/
theorem C3_edit_preserves_identity_and_author (l1 l2 : List Decision)
    (d p : Decision) (e : Env) (s : PluginState)
    (hdec : s.decisions = l1 ++ d :: l2)
    (hfirst : ∀ x ∈ l1, (x.id == p.id) = false)
    (hid : p.id = d.id) :
    (step (Command.editDecision p) e s).1.decisions
      = l1 ++ { id := d.id, title := p.title, rationale := p.rationale,
                context := p.context, timestamp := e.now,
                author := d.author, links := p.links, pros := p.pros,
                cons := p.cons, tags := p.tags, nodeId := p.nodeId,
                nodeName := p.nodeName, pageName := p.pageName,
                status := p.status } :: l2 := by
  have h2 : (d.id == p.id) = true := by simp [hid]
  have hfind := editFirstDecision_first_match p e.now l1 l2 d hfirst h2
  have hrec : ({ p with timestamp := e.now, author := d.author } : Decision)
      = { id := d.id, title := p.title, rationale := p.rationale,
          context := p.context, timestamp := e.now, author := d.author,
          links := p.links, pros := p.pros, cons := p.cons,
          tags := p.tags, nodeId := p.nodeId, nodeName := p.nodeName,
          pageName := p.pageName, status := p.status } := by
    obtain ⟨pid, pt, pr, pc, pts, pa, pl, pp, pcs, ptg, pni, pnn, ppn,
            pst⟩ := p
    have hid2 : pid = d.id := hid
    subst hid2
    rfl
  simp only [step, hdec, hfind]
  cases hok : e.saveOk <;> simp [hok, hrec]

/-- A stored decision used as a concrete input. -/
def storedSample : Decision :=
  { id := "1000", title := "Use dark mode default",
    rationale := "Accessibility", context := "Settings redesign",
    timestamp := 1000, author := "Alice", links := [], pros := [],
    cons := [], tags := [], nodeId := none, nodeName := none,
    pageName := none, status := Status.proposed }

/-- An edit payload carrying the same id but a different author. -/
def editPayloadSample : Decision :=
  { id := "1000", title := "Use dark mode default",
    rationale := "Better accessibility", context := "Settings redesign",
    timestamp := 1000, author := "Mallory", links := [], pros := [],
    cons := [], tags := [], nodeId := none, nodeName := none,
    pageName := none, status := Status.accepted }

/-- Witness for C3 at a concrete stored decision and edit payload. -/
theorem C3_witness :
    (({ decisions := [storedSample], resources := [],
        storedDecisions := none,
        storedResources := none } : PluginState).decisions
        = [] ++ storedSample :: [])
    ∧ (∀ x ∈ ([] : List Decision),
        (x.id == editPayloadSample.id) = false)
    ∧ editPayloadSample.id = storedSample.id
    ∧ (step (Command.editDecision editPayloadSample)
          { now := 2000, user := some "Bob", saveOk := true }
          { decisions := [storedSample], resources := [],
            storedDecisions := none, storedResources := none }).1.decisions
        = [] ++ { id := storedSample.id,
                  title := editPayloadSample.title,
                  rationale := editPayloadSample.rationale,
                  context := editPayloadSample.context,
                  timestamp := 2000,
                  author := storedSample.author,
                  links := editPayloadSample.links,
                  pros := editPayloadSample.pros,
                  cons := editPayloadSample.cons,
                  tags := editPayloadSample.tags,
                  nodeId := editPayloadSample.nodeId,
                  nodeName := editPayloadSample.nodeName,
                  pageName := editPayloadSample.pageName,
                  status := editPayloadSample.status } :: [] :=
  ⟨rfl, by simp, rfl,
   C3_edit_preserves_identity_and_author [] [] storedSample
     editPayloadSample
     { now := 2000, user := some "Bob", saveOk := true }
     { decisions := [storedSample], resources := [],
       storedDecisions := none, storedResources := none }
     rfl (by simp) rfl⟩

/-- Claim C6: an edit-decision payload whose id matches no stored
decision leaves the whole state unchanged — in-memory collection
untouched, no save performed, persisted blob untouched — and emits
nothing. -/
theorem C6_edit_missing_id_is_silent_noop (p : Decision) (e : Env)
    (s : PluginState)
    (h : ∀ d ∈ s.decisions, (d.id == p.id) = false) :
    step (Command.editDecision p) e s = (s, []) := by
  simp only [step, editFirstDecision_not_found p e.now s.decisions h]

/-- An edit payload whose id matches nothing in the stored collection. -/
def missingEditPayload : Decision :=
  { id := "9999", title := "Phantom", rationale := "None",
    context := "None", timestamp := 5, author := "Mallory", links := [],
    pros := [], cons := [], tags := [], nodeId := none, nodeName := none,
    pageName := none, status := Status.rejected }

/-- Witness for C6 at a concrete state and unmatched payload. -/
theorem C6_witness :
    (∀ d ∈ ({ decisions := [storedSample], resources := [],
              storedDecisions := none,
              storedResources := none } : PluginState).decisions,
        (d.id == missingEditPayload.id) = false)
    ∧ step (Command.editDecision missingEditPayload)
          { now := 2000, user := some "Bob", saveOk := true }
          { decisions := [storedSample], resources := [],
            storedDecisions := none, storedResources := none }
        = ({ decisions := [storedSample], resources := [],
             storedDecisions := none, storedResources := none }, []) :=
  ⟨by decide,
   C6_edit_missing_id_is_silent_noop missingEditPayload
     { now := 2000, user := some "Bob", saveOk := true }
     { decisions := [storedSample], resources := [],
       storedDecisions := none, storedResources := none }
     (by decide)⟩

/-- Claim C7: a delete-decision command whose id matches no stored
decision leaves the in-memory decision collection exactly as it was,
same records in the same order. -/
theorem C7_delete_missing_id_keeps_decisions (delId : String) (e : Env)
    (s : PluginState)
    (h : ∀ d ∈ s.decisions, (d.id == delId) = false) :
    (step (Command.deleteDecision delId) e s).1.decisions
      = s.decisions := by
  have hfilter : s.decisions.filter (fun d => d.id != delId)
      = s.decisions := by
    apply List.filter_eq_self.mpr
    intro a ha
    simp [bne, h a ha]
  cases hok : e.saveOk <;> simp [step, hok, hfilter]

/-- Witness for C7 at a concrete state and unmatched id. -/
theorem C7_witness :
    (∀ d ∈ ({ decisions := [storedSample], resources := [],
              storedDecisions := none,
              storedResources := none } : PluginState).decisions,
        (d.id == "9999") = false)
    ∧ (step (Command.deleteDecision "9999")
          { now := 2000, user := some "Bob", saveOk := true }
          { decisions := [storedSample], resources := [],
            storedDecisions := none, storedResources := none }).1.decisions
        = [storedSample] :=
  ⟨by decide,
   C7_delete_missing_id_keeps_decisions "9999"
     { now := 2000, user := some "Bob", saveOk := true }
     { decisions := [storedSample], resources := [],
       storedDecisions := none, storedResources := none }
     (by decide)⟩

/-- Claim C10 (implicit): the delete handlers filter by id, so one
delete command removes every stored record whose id equals the given
id, not only the first match, for decisions and resources alike. -/
theorem C10_delete_removes_every_matching_record (delId : String)
    (e : Env) (s : PluginState) (d : Decision) (r : Resource) :
    (d ∈ (step (Command.deleteDecision delId) e s).1.decisions
        ↔ d ∈ s.decisions ∧ d.id ≠ delId)
    ∧ (r ∈ (step (Command.deleteResource delId) e s).1.resources
        ↔ r ∈ s.resources ∧ r.id ≠ delId) := by
  constructor <;>
    (cases hok : e.saveOk <;> simp [step, hok, List.mem_filter, bne])

/-- Claim C5 fails on the code: evaluated at a concrete edit-decision
payload whose id matches no stored decision (empty collection), the
handler emits zero terminal events, not exactly one — the unmatched
branch of edit-decision is completely silent. -/
theorem C5_counterexample_unmatched_edit_emits_no_event :
    ((step (Command.editDecision missingEditPayload)
        { now := 5, user := some "Alice", saveOk := true }
        initState).2).length ≠ 1 := by decide

theorem any_id_beq_false_of_forall (l : List Decision) (p : Decision)
    (h : ∀ d ∈ l, (d.id == p.id) = false) :
    l.any (fun d => d.id == p.id) = false := by
  cases hb : l.any (fun d => d.id == p.id) with
  | false => rfl
  | true =>
    exfalso
    obtain ⟨x, hx, hbx⟩ := List.any_eq_true.mp hb
    rw [h x hx] at hbx
    cases hbx

theorem any_id_beq_false_of_forall_res (l : List Resource) (p : Resource)
    (h : ∀ r ∈ l, (r.id == p.id) = false) :
    l.any (fun r => r.id == p.id) = false := by
  cases hb : l.any (fun r => r.id == p.id) with
  | false => rfl
  | true =>
    exfalso
    obtain ⟨x, hx, hbx⟩ := List.any_eq_true.mp hb
    rw [h x hx] at hbx
    cases hbx

/-- Claim C5 amended: every create/edit/delete command emits exactly one
terminal event — the record event on success or the error notification
on save failure — except an edit command whose id matches no stored
record, which emits none at all. -/
theorem C5_amended_terminal_event_count (c : Command) (e : Env)
    (s : PluginState) :
    ((step c e s).2).length
      = (match c with
         | Command.editDecision p =>
           if s.decisions.any (fun d => d.id == p.id) then 1 else 0
         | Command.editResource p =>
           if s.resources.any (fun r => r.id == p.id) then 1 else 0
         | _ => 1) := by
  cases c with
  | createDecision msg => cases hok : e.saveOk <;> simp [step, hok]
  | deleteDecision delId => cases hok : e.saveOk <;> simp [step, hok]
  | createResource msg => cases hok : e.saveOk <;> simp [step, hok]
  | deleteResource delId => cases hok : e.saveOk <;> simp [step, hok]
  | editDecision p =>
    cases hfind : editFirstDecision p e.now s.decisions with
    | none =>
      have hall := editFirstDecision_none_forall p e.now s.decisions hfind
      have hany := any_id_beq_false_of_forall s.decisions p hall
      simp [step, hfind, hany]
    | some pair =>
      obtain ⟨ds, u⟩ := pair
      have hany : s.decisions.any (fun d => d.id == p.id) = true := by
        cases hb : s.decisions.any (fun d => d.id == p.id) with
        | true => rfl
        | false =>
          exfalso
          have hall : ∀ d ∈ s.decisions, (d.id == p.id) = false := by
            intro x hx
            cases hbx : x.id == p.id with
            | false => rfl
            | true =>
              exfalso
              have hc : s.decisions.any (fun d => d.id == p.id) = true :=
                List.any_eq_true.mpr ⟨x, hx, hbx⟩
              rw [hb] at hc
              cases hc
          rw [editFirstDecision_not_found p e.now s.decisions hall]
            at hfind
          cases hfind
      cases hok : e.saveOk <;> simp [step, hfind, hany, hok]
  | editResource p =>
    cases hfind : editFirstResource p e.now s.resources with
    | none =>
      have hall := editFirstResource_none_forall p e.now s.resources hfind
      have hany := any_id_beq_false_of_forall_res s.resources p hall
      simp [step, hfind, hany]
    | some pair =>
      obtain ⟨rs, u⟩ := pair
      have hany : s.resources.any (fun r => r.id == p.id) = true := by
        cases hb : s.resources.any (fun r => r.id == p.id) with
        | true => rfl
        | false =>
          exfalso
          have hall : ∀ r ∈ s.resources, (r.id == p.id) = false := by
            intro x hx
            cases hbx : x.id == p.id with
            | false => rfl
            | true =>
              exfalso
              have hc : s.resources.any (fun r => r.id == p.id) = true :=
                List.any_eq_true.mpr ⟨x, hx, hbx⟩
              rw [hb] at hc
              cases hc
          rw [editFirstResource_not_found p e.now s.resources hall]
            at hfind
          cases hfind
      cases hok : e.saveOk <;> simp [step, hfind, hany, hok]

theorem stepPreservesSync (c : Command) (e : Env) (s : PluginState)
    (hok : e.saveOk = true) (hd : decisionsInSync s)
    (hr : resourcesInSync s) :
    decisionsInSync (step c e s).1 ∧ resourcesInSync (step c e s).1 := by
  cases c with
  | createDecision msg =>
    constructor
    · simp [step, hok, decisionsInSync, loadDecisionsBlob,
            decodeDecisionList_encodeDecisionList]
    · simpa [step, hok, resourcesInSync] using hr
  | editDecision p =>
    cases hfind : editFirstDecision p e.now s.decisions with
    | none =>
      simp only [step, hfind]
      exact ⟨hd, hr⟩
    | some pair =>
      obtain ⟨ds, u⟩ := pair
      constructor
      · simp [step, hfind, hok, decisionsInSync, loadDecisionsBlob,
              decodeDecisionList_encodeDecisionList]
      · simpa [step, hfind, hok, resourcesInSync] using hr
  | deleteDecision delId =>
    constructor
    · simp [step, hok, decisionsInSync, loadDecisionsBlob,
            decodeDecisionList_encodeDecisionList]
    · simpa [step, hok, resourcesInSync] using hr
  | createResource msg =>
    constructor
    · simpa [step, hok, decisionsInSync] using hd
    · simp [step, hok, resourcesInSync, loadResourcesBlob,
            decodeResourceList_encodeResourceList]
  | editResource p =>
    cases hfind : editFirstResource p e.now s.resources with
    | none =>
      simp only [step, hfind]
      exact ⟨hd, hr⟩
    | some pair =>
      obtain ⟨rs, u⟩ := pair
      constructor
      · simpa [step, hfind, hok, decisionsInSync] using hd
      · simp [step, hfind, hok, resourcesInSync, loadResourcesBlob,
              decodeResourceList_encodeResourceList]
  | deleteResource delId =>
    constructor
    · simpa [step, hok, decisionsInSync] using hd
    · simp [step, hok, resourcesInSync, loadResourcesBlob,
            decodeResourceList_encodeResourceList]

/-- Claim C1: over any sequence of create/edit/delete commands in which
every attempted save succeeded, starting from a state whose blobs agree
with memory, the final in-memory decision and resource collections
decode exactly from the final persisted blobs — each handler mutates
memory first and then writes the fully serialized list. -/
theorem C1_memory_agrees_with_storage (cmds : List (Command × Env))
    (s : PluginState)
    (hok : ∀ ce ∈ cmds, ce.2.saveOk = true)
    (hd : decisionsInSync s) (hr : resourcesInSync s) :
    decisionsInSync (run cmds s) ∧ resourcesInSync (run cmds s) := by
  revert hok hd hr
  induction cmds generalizing s with
  | nil =>
    intro _ hd hr
    exact ⟨hd, hr⟩
  | cons ce rest ih =>
    intro hok hd hr
    have h1 := stepPreservesSync ce.1 ce.2 s
      (hok ce (List.mem_cons_self ce rest)) hd hr
    have hok2 : ∀ x ∈ rest, x.2.saveOk = true :=
      fun x hx => hok x (List.mem_cons_of_mem ce hx)
    have hrun : run (ce :: rest) s = run rest (step ce.1 ce.2 s).1 := rfl
    rw [hrun]
    exact ih (step ce.1 ce.2 s).1 hok2 h1.1 h1.2

/-- Witness for C1: a concrete create-then-delete sequence with
successful saves, starting from the empty initial state. -/
theorem C1_witness :
    (∀ ce ∈ [(Command.createDecision darkModeMsg,
              ({ now := 1000, user := some "Alice",
                 saveOk := true } : Env)),
             (Command.deleteDecision "1000",
              ({ now := 2000, user := some "Alice",
                 saveOk := true } : Env))],
        ce.2.saveOk = true)
    ∧ decisionsInSync initState
    ∧ resourcesInSync initState
    ∧ (decisionsInSync
        (run [(Command.createDecision darkModeMsg,
               ({ now := 1000, user := some "Alice",
                  saveOk := true } : Env)),
              (Command.deleteDecision "1000",
               ({ now := 2000, user := some "Alice",
                  saveOk := true } : Env))] initState)
       ∧ resourcesInSync
        (run [(Command.createDecision darkModeMsg,
               ({ now := 1000, user := some "Alice",
                  saveOk := true } : Env)),
              (Command.deleteDecision "1000",
               ({ now := 2000, user := some "Alice",
                  saveOk := true } : Env))] initState)) :=
  ⟨by decide, rfl, rfl,
   C1_memory_agrees_with_storage _ initState (by decide) rfl rfl⟩
